import Mathlib

/-!
Verification of the weston desktop-shell client
(src/weston/clients/desktop-shell-{simple,panel,background,unlock}.c).

Each definition is a shallow embedding of one function or code block of the
C sources; the doc comment of each names the function and lines it embeds.
C strings are modelled as `List Char`, NULL-terminated `char *` arrays
(`wl_array` of pointers) as `List (Option (List Char))` whose final entry
`none` is the NULL terminator, and machine booleans as `Bool`.
-/

namespace WestonShell

/-! ## Launcher command-line parsing (desktop-shell-panel.c, panel_add_launcher) -/

/-- C `isspace` on the characters the parser meets: space, \t, \n, \v, \f, \r
(desktop-shell-panel.c lines 469, 491 use `isspace`). -/
def cIsSpace (c : Char) : Bool :=
  c == ' ' || c == '\t' || c == '\n' || c == (Char.ofNat 11) || c == (Char.ofNat 12) || c == '\r'

/-- Accumulates the maximal runs of non-space characters of `cs`
(`cur` is the run being read, in reverse). -/
def wordsAux : List Char → List Char → List (List Char)
  | [], cur => if cur.isEmpty then [] else [cur.reverse]
  | c :: cs, cur =>
    if cIsSpace c then
      if cur.isEmpty then wordsAux cs [] else cur.reverse :: wordsAux cs []
    else
      wordsAux cs (c :: cur)

/-- The token sequence the scanning loop of panel_add_launcher
(desktop-shell-panel.c lines 467-495) visits: each iteration takes the run
`[start, p)` of non-space characters — which is empty exactly when the string
begins with whitespace, since every later iteration starts after
`while (*p && isspace(*p)) *p++ = '\0';` has consumed all spaces — so the
tokens are the maximal non-space runs, preceded by one empty token when the
string starts with whitespace. -/
def tokenize (cs : List Char) : List (List Char) :=
  match cs with
  | [] => []
  | c :: _ => if cIsSpace c then [] :: wordsAux cs [] else wordsAux cs []

/-- Whether a token contains `=`, i.e. the loop at desktop-shell-panel.c
lines 469-471 leaves `eq` non-NULL. -/
def hasEq (t : List Char) : Bool := t.contains '='

/-- The characters of `t` strictly before its last `=` — the range
`[start, eq)` of desktop-shell-panel.c line 476, `eq` being the LAST `=`
of the token (line 470-471 keeps overwriting `eq`). Unused when `t` has
no `=`. -/
def envVarName (t : List Char) : List Char :=
  (((t.reverse).dropWhile (fun c => c != '=')).drop 1).reverse

/-- The test `strncmp(e, t, (envVarName t).length) == 0` of desktop-shell-panel.c
line 476: the first name-length characters of the existing entry `e` equal
the token's name (the token itself starts with its name). -/
def envEntryMatches (t : List Char) (e : List Char) : Bool :=
  e.take (envVarName t).length == envVarName t

/-- The environment-merge step of desktop-shell-panel.c lines 473-484: scan
the current entries in order, overwrite the first whose leading characters
match the token's name (line 476-479, `break`), else append the token
(lines 480-484). -/
def mergeEnvToken : List (List Char) → List Char → List (List Char)
  | [], t => [t]
  | e :: es, t => if envEntryMatches t e then t :: es else e :: mergeEnvToken es t

/-- The classification of desktop-shell-panel.c lines 468-495: a token goes
to the environment overrides when it contains `=` and no argv token has been
emitted yet (`eq && j == 0`, line 473); every other token goes to argv and
sets `j > 0` (lines 485-489). Returns (overrides, argv) in order. -/
def classifyTokens : List (List Char) → Bool → List (List Char) × List (List Char)
  | [], _ => ([], [])
  | t :: ts, sawPlain =>
    if hasEq t && !sawPlain then
      let r := classifyTokens ts sawPlain
      (t :: r.1, r.2)
    else
      let r := classifyTokens ts true
      (r.1, t :: r.2)

/-- The tokens after the first token that contains no `=`. -/
def afterFirstPlain : List (List Char) → List (List Char)
  | [] => []
  | t :: ts => if hasEq t then afterFirstPlain ts else ts

/-- The parsed result panel_add_launcher stores in the launcher
(desktop-shell-panel.c lines 459-500): `envp` and `argv` as NULL-terminated
pointer arrays (`none` is the NULL appended at lines 497-500). -/
structure LauncherParse where
  envp : List (Option (List Char))
  argv : List (Option (List Char))
  deriving DecidableEq

/-- The whole parse of panel_add_launcher (desktop-shell-panel.c lines
459-500): envp starts as a copy of `environ` (lines 461-464); the scan
classifies each token, merging each override into envp in order — override
tokens all precede the first argv token, so the one-pass merge equals a fold
of the override list — and collecting argv; both arrays end with NULL. -/
def panel_add_launcher_parse (environ : List (List Char)) (path : List Char) :
    LauncherParse :=
  let r := classifyTokens (tokenize path) false
  { envp := (r.1.foldl mergeEnvToken environ).map some ++ [none]
    argv := r.2.map some ++ [none] }

/-- What the child of panel_launcher_activate (desktop-shell-panel.c lines
94-114) passes to `execve(argv[0], argv, envp)`. -/
structure ExecCall where
  file : Option (List Char)
  argv : List (Option (List Char))
  envp : List (Option (List Char))
  deriving DecidableEq

/-- panel_launcher_activate, child branch (desktop-shell-panel.c lines
109-113): exec the parsed vectors, with `argv[0]` as the executable path. -/
def panel_launcher_activate (l : LauncherParse) : ExecCall :=
  { file := l.argv.headD none, argv := l.argv, envp := l.envp }

/-- Pointer-button states of `enum wl_pointer_button_state`. -/
inductive BtnState where
  | pressed
  | released
  deriving DecidableEq

/-- BTN_LEFT of linux/input.h (0x110). -/
def BTN_LEFT : Nat := 272

/-- BTN_RIGHT of linux/input.h (0x111). -/
def BTN_RIGHT : Nat := 273

/-- panel_launcher_button_handler (desktop-shell-panel.c lines 207-219):
activate on a button release — the button code is never examined — else do
nothing (the redraw it also schedules is not modelled). -/
def panel_launcher_button_handler (l : LauncherParse) (_button : Nat)
    (state : BtnState) : Option ExecCall :=
  if state == BtnState.released then some (panel_launcher_activate l) else none

/-! ## Lock coordinator (desktop-shell-unlock.c, desktop-shell-simple.c) -/

/-- The fields of `struct unlock_dialog` the lock logic reads
(desktop-shell-unlock.c lines 42-49). -/
structure UnlockDialog where
  button_focused : Bool
  closing : Bool
  deriving DecidableEq

/-- The `struct unlocker` (desktop-shell-unlock.c lines 51-55): owns
zero-or-one dialog. -/
structure Unlocker where
  dialog : Option UnlockDialog
  deriving DecidableEq

/-- The `static int key_locking = 1` of desktop-shell-simple.c line 70. No code
in the four source files ever assigns it, so the local lock policy stays
enabled for the whole process. -/
def key_locking : Bool := true

/-- unlocker_create (desktop-shell-unlock.c lines 208-216): the function
allocates an unlocker and initializes its task and desktop fields (lines
212-214), but then executes `return 0;` (line 215), so its caller always
receives NULL and the initialized unlocker leaks. -/
def unlocker_create : Option Unlocker :=
  let _leaked : Unlocker := { dialog := none }
  none

/-- What desktop_shell_prepare_lock_surface decides to do. -/
inductive LockAction where
  /-- Call `desktop_shell_unlock(desktop->shell)` with no dialog shown. -/
  | unlockNow
  /-- Call `unlocker_lock(desktop->unlocker)`: show the dialog. -/
  | showDialog
  deriving DecidableEq

/-- desktop_shell_prepare_lock_surface (desktop-shell-simple.c lines
140-152): `if (!key_locking || !desktop->unlocker)` unlock immediately,
else hand over to the unlocker. -/
def desktop_shell_prepare_lock_surface (keyLocking : Bool)
    (unlocker : Option Unlocker) : LockAction :=
  if !keyLocking || unlocker.isNone then LockAction.unlockNow
  else LockAction.showDialog

/-- unlock_dialog_button_handler (desktop-shell-unlock.c lines 104-122),
acting on the dialog's closing flag: on a BTN_LEFT release while not yet
closing, defer the completion task and set closing. Returns (the closing
flag afterwards, whether a task was deferred by this call). -/
def unlock_dialog_button_handler (closing : Bool) (button : Nat)
    (state : BtnState) : Bool × Bool :=
  if button == BTN_LEFT && state == BtnState.released && !closing then
    (true, true)
  else
    (closing, false)

/-- A sequence of button events delivered to the dialog's button widget:
the final closing flag and how many completion tasks were deferred. -/
def run_unlock_clicks : Bool → List (Nat × BtnState) → Bool × Nat
  | closing, [] => (closing, 0)
  | closing, (b, s) :: evs =>
    let r := unlock_dialog_button_handler closing b s
    let rest := run_unlock_clicks r.1 evs
    (rest.1, (if r.2 then 1 else 0) + rest.2)

/-! ## Readiness barrier (desktop-shell-simple.c lines 94-124) -/

/-- One `struct output` (desktop-shell-simple.c lines 62-68) as the barrier
sees it: `some b` is a present sub-surface with painted flag `b`, `none`
an absent one. -/
structure OutputS where
  panel : Option Bool
  background : Option Bool
  deriving DecidableEq

/-- The `struct desktop` fields the barrier reads (desktop-shell-simple.c
lines 47-60). -/
structure DesktopS where
  outputs : List OutputS
  painted : Bool
  interface_version : Nat
  deriving DecidableEq

/-- is_desktop_painted (desktop-shell-simple.c lines 94-107): false exactly
when some tracked output has a present but unpainted panel or background. -/
def is_desktop_painted (d : DesktopS) : Bool :=
  d.outputs.all (fun o => o.panel.getD true && o.background.getD true)

/-- check_desktop_ready (desktop-shell-simple.c lines 109-124): when the
desktop-wide flag is still clear and every surface has painted, set the
flag, and notify the compositor (desktop_shell_desktop_ready) exactly when
the negotiated interface version is at least 2. Returns (the desktop
afterwards, whether the compositor was notified). -/
def check_desktop_ready (d : DesktopS) : DesktopS × Bool :=
  if !d.painted && is_desktop_painted d then
    ({ d with painted := true }, decide (2 ≤ d.interface_version))
  else
    (d, false)

/-- Which of an output's two sub-surfaces painted. -/
inductive SubSurface where
  | panel
  | background
  deriving DecidableEq

/-- Mark one sub-surface of one output as painted (the `painted = 1` store
of panel_redraw_handler, desktop-shell-panel.c line 180, or background_draw,
desktop-shell-background.c line 156). -/
def paintOutput (o : OutputS) : SubSurface → OutputS
  | SubSurface.panel => { o with panel := o.panel.map (fun _ => true) }
  | SubSurface.background => { o with background := o.background.map (fun _ => true) }

/-- Mark sub-surface `k` of the output at position `i` as painted. -/
def paintOutputs : List OutputS → Nat → SubSurface → List OutputS
  | [], _, _ => []
  | o :: os, 0, k => paintOutput o k :: os
  | o :: os, Nat.succ n, k => o :: paintOutputs os n k

/-- A sequence of redraw completions: each marks its surface painted and
then runs check_desktop_ready, as both redraw handlers do. Returns (the
desktop afterwards, how many times the compositor was notified). -/
def runPaints : DesktopS → List (Nat × SubSurface) → DesktopS × Nat
  | d, [] => (d, 0)
  | d, (i, k) :: evs =>
    let r := check_desktop_ready { d with outputs := paintOutputs d.outputs i k }
    let rest := runPaints r.1 evs
    (rest.1, (if r.2 then 1 else 0) + rest.2)

/-! ## Per-surface painted flags (desktop-shell-panel.c, desktop-shell-background.c) -/

/-- The widget/event callbacks that run against one panel
(desktop-shell-panel.c): panel_redraw_handler (165-182),
panel_resize_handler (357-380), panel_button_handler (345-355),
panel_configure (382-392), panel_clock_redraw_handler (233-269). -/
inductive PanelOp where
  | redraw
  | resize
  | button
  | configure
  | clockRedraw
  deriving DecidableEq

/-- The panel state the claim observes: `int painted`
(desktop-shell-panel.c line 51). -/
structure PanelSt where
  painted : Bool
  deriving DecidableEq

/-- Effect of each panel callback on `panel->painted`: only
panel_redraw_handler assigns it (`panel->painted = 1`, line 180); no
callback ever clears it. -/
def panel_op_step (s : PanelSt) : PanelOp → PanelSt
  | PanelOp.redraw => { painted := true }
  | _ => s

/-- Run a sequence of panel callbacks. -/
def panel_op_run (s : PanelSt) (ops : List PanelOp) : PanelSt :=
  ops.foldl panel_op_step s

/-- How many times the painted flag changes value along a run. -/
def panel_flips : PanelSt → List PanelOp → Nat
  | _, [] => 0
  | s, op :: ops =>
    let s' := panel_op_step s op
    (if s.painted != s'.painted then 1 else 0) + panel_flips s' ops

/-- The callbacks that run against one background
(desktop-shell-background.c): background_draw (84-158) and
background_configure (160-170). -/
inductive BackgroundOp where
  | draw
  | configure
  deriving DecidableEq

/-- The background state the claim observes: `int painted:1`
(desktop-shell-background.c line 64). -/
structure BackgroundSt where
  painted : Bool
  deriving DecidableEq

/-- Effect of each background callback on `background->painted`: only
background_draw assigns it (`background->painted = 1`, line 156); no
callback ever clears it. -/
def background_op_step (s : BackgroundSt) : BackgroundOp → BackgroundSt
  | BackgroundOp.draw => { painted := true }
  | BackgroundOp.configure => s

/-- Run a sequence of background callbacks. -/
def background_op_run (s : BackgroundSt) (ops : List BackgroundOp) : BackgroundSt :=
  ops.foldl background_op_step s

/-- How many times the painted flag changes value along a run. -/
def background_flips : BackgroundSt → List BackgroundOp → Nat
  | _, [] => 0
  | s, op :: ops =>
    let s' := background_op_step s op
    (if s.painted != s'.painted then 1 else 0) + background_flips s' ops

/-! ## Background fill transform (desktop-shell-background.c lines 111-136)

The C doubles are modelled as exact rationals: the claims are about which
formulas the code computes, not about rounding. -/

/-- A cairo affine matrix: x' = xx*x + xy*y + x0, y' = yx*x + yy*y + y0. -/
structure CairoMatrix where
  xx : ℚ
  yx : ℚ
  xy : ℚ
  yy : ℚ
  x0 : ℚ
  y0 : ℚ
  deriving DecidableEq

/-- cairo_matrix_init_scale. -/
def cairo_matrix_init_scale (sx sy : ℚ) : CairoMatrix :=
  ⟨sx, 0, 0, sy, 0, 0⟩

/-- cairo_matrix_init_translate. -/
def cairo_matrix_init_translate (tx ty : ℚ) : CairoMatrix :=
  ⟨1, 0, 0, 1, tx, ty⟩

/-- cairo_matrix_multiply: the transformation applying `a` first, then `b`. -/
def cairo_matrix_multiply (a b : CairoMatrix) : CairoMatrix :=
  { xx := b.xx * a.xx + b.xy * a.yx
    yx := b.yx * a.xx + b.yy * a.yx
    xy := b.xx * a.xy + b.xy * a.yy
    yy := b.yx * a.xy + b.yy * a.yy
    x0 := b.xx * a.x0 + b.xy * a.y0 + b.x0
    y0 := b.yx * a.x0 + b.yy * a.y0 + b.y0 }

/-- cairo_matrix_scale: scale the coordinates first, then apply `m`. -/
def cairo_matrix_scale (m : CairoMatrix) (sx sy : ℚ) : CairoMatrix :=
  cairo_matrix_multiply (cairo_matrix_init_scale sx sy) m

/-- The `enum` of desktop-shell-background.c lines 68-72. -/
inductive BackgroundType where
  | scale
  | scaleCrop
  | tile
  deriving DecidableEq

/-- What background_draw configures on the cairo pattern: the matrix passed
to cairo_pattern_set_matrix, if any, and whether CAIRO_EXTEND_REPEAT was
set. -/
structure PatternSetup where
  matrix : Option CairoMatrix
  extendRepeat : Bool
  deriving DecidableEq

/-- The switch of background_draw (desktop-shell-background.c lines
111-136), given the image size (im_w, im_h) and the allocation size
(aw, ah): sx = im_w/aw, sy = im_h/ah (lines 114-115); SCALE installs
init_scale(sx, sy); SCALE_CROP takes s = min(sx, sy), a centering
translation, and scales; TILE sets no matrix and only repeat-extend. -/
def background_draw_pattern (ty : BackgroundType) (im_w im_h aw ah : ℚ) :
    PatternSetup :=
  let sx := im_w / aw
  let sy := im_h / ah
  match ty with
  | BackgroundType.scale =>
    { matrix := some (cairo_matrix_init_scale sx sy), extendRepeat := false }
  | BackgroundType.scaleCrop =>
    let s := if sx < sy then sx else sy
    let tx := (im_w - s * aw) * (1 / 2)
    let tyv := (im_h - s * ah) * (1 / 2)
    { matrix := some (cairo_matrix_scale (cairo_matrix_init_translate tx tyv) s s)
      extendRepeat := false }
  | BackgroundType.tile =>
    { matrix := none, extendRepeat := true }

/-- The transform the spec's words state (spec §4.1 and §8): SCALE uses the
independent ratios; SCALE_CROP a uniform scale by min(sx, sy) with the
centered translation ((im_w - s*aw)/2, (im_h - s*ah)/2); TILE no matrix,
only repeat-extend. Stated directly as the resulting affine matrix, for
comparison with background_draw_pattern. -/
def spec_background_transform (ty : BackgroundType) (im_w im_h aw ah : ℚ) :
    PatternSetup :=
  match ty with
  | BackgroundType.scale =>
    { matrix := some ⟨im_w / aw, 0, 0, im_h / ah, 0, 0⟩, extendRepeat := false }
  | BackgroundType.scaleCrop =>
    let s := min (im_w / aw) (im_h / ah)
    { matrix := some ⟨s, 0, 0, s, (im_w - s * aw) / 2, (im_h - s * ah) / 2⟩
      extendRepeat := false }
  | BackgroundType.tile =>
    { matrix := none, extendRepeat := true }

/-! ## Panel configuration reading (desktop-shell-panel.c lines 518-594) -/

/-- One INI section of the configuration as panel_read_config's section
table (desktop-shell-panel.c lines 77-92) receives it. Modelled from the
spec: the configuration-file parser (shared/config-parser.c) is not among
the source files; per spec §6 the file is INI-style with a `[panel]`
section (key color) and repeatable `[launcher]` sections (keys icon,
path), any key possibly missing. -/
inductive ConfigSection where
  | panel (color : Option Nat)
  | launcher (icon : Option (List Char)) (path : Option (List Char))
  deriving DecidableEq

/-- Whether a section is a `[launcher]` section. -/
def ConfigSection.isLauncher : ConfigSection → Bool
  | ConfigSection.launcher _ _ => true
  | _ => false

/-- A launcher as panel_add_launcher stores it. -/
structure PanelLauncher where
  icon : List Char
  parse : LauncherParse
  deriving DecidableEq

/-- The panel state the configuration claims observe: the launcher list
(appended to at its tail, desktop-shell-panel.c line 503). -/
structure PanelModel where
  launchers : List PanelLauncher
  deriving DecidableEq

/-- launcher_section_done (desktop-shell-panel.c lines 518-535): a section
missing icon or path is logged and skipped; otherwise panel_add_launcher
runs. A `[panel]` section adds no launcher. -/
def launcher_section_done (environ : List (List Char)) (panel : PanelModel) :
    ConfigSection → PanelModel
  | ConfigSection.launcher (some icon) (some path) =>
    { launchers := panel.launchers ++ [⟨icon, panel_add_launcher_parse environ path⟩] }
  | _ => panel

/-- Modelled from the spec: parse_config_file (shared/config-parser.c, not
among the source files) returns a negative value when the configuration
file cannot be opened or read (`none` here), and otherwise processes the
sections in order — invoking each section's done-callback — and returns a
non-negative value: per spec §6/§7, configuration errors inside a readable
file are "never fatal", the entry is "skipped or default substituted".
Returns (the panel afterwards, the C return value). -/
def parse_config_file (environ : List (List Char)) (panel : PanelModel)
    (config : Option (List ConfigSection)) : PanelModel × Int :=
  match config with
  | none => (panel, -1)
  | some sections => (sections.foldl (launcher_section_done environ) panel, 0)

/-- DATADIR "/weston/terminal.png" (desktop-shell-panel.c line 591);
DATADIR is a build-time prefix macro, kept as literal text here. -/
def default_terminal_icon : List Char := "DATADIR/weston/terminal.png".data

/-- BINDIR "/weston-terminal" (desktop-shell-panel.c line 592). -/
def default_terminal_path : List Char := "BINDIR/weston-terminal".data

/-- panel_read_config (desktop-shell-panel.c lines 581-594): parse the
configuration; exactly when parse_config_file returned a negative value,
add the default terminal launcher. -/
def panel_read_config (environ : List (List Char)) (panel : PanelModel)
    (config : Option (List ConfigSection)) : PanelModel × Int :=
  let r := parse_config_file environ panel config
  if r.2 < 0 then
    ({ launchers := r.1.launchers ++
        [⟨default_terminal_icon, panel_add_launcher_parse environ default_terminal_path⟩] },
     r.2)
  else
    r

/-! ## Helper lemmas -/

theorem classifyTokens_true (ts : List (List Char)) :
    classifyTokens ts true = ([], ts) := by
  induction ts with
  | nil => rfl
  | cons t ts ih => simp [classifyTokens, ih]

theorem classifyTokens_overrides_hasEq :
    ∀ ts : List (List Char), ∀ t ∈ (classifyTokens ts false).1, hasEq t = true := by
  intro ts
  induction ts with
  | nil => simp [classifyTokens]
  | cons s ts ih =>
    intro t ht
    cases hs : hasEq s with
    | false => simp [classifyTokens, hs, classifyTokens_true] at ht
    | true =>
      simp only [classifyTokens, hs, Bool.not_false, Bool.and_self, if_true] at ht
      rcases List.mem_cons.mp ht with rfl | ht
      · exact hs
      · exact ih t ht

theorem classifyTokens_argv_head :
    ∀ ts : List (List Char),
      (classifyTokens ts false).2 = [] ∨
      ∃ h tl, (classifyTokens ts false).2 = h :: tl ∧ hasEq h = false := by
  intro ts
  induction ts with
  | nil => left; rfl
  | cons s ts ih =>
    cases hs : hasEq s with
    | true => simpa [classifyTokens, hs] using ih
    | false =>
      right
      exact ⟨s, ts, by simp [classifyTokens, hs, classifyTokens_true], hs⟩

theorem classifyTokens_append_overrides :
    ∀ (os ts : List (List Char)), (∀ t ∈ os, hasEq t = true) →
      classifyTokens (os ++ ts) false =
        (os ++ (classifyTokens ts false).1, (classifyTokens ts false).2) := by
  intro os
  induction os with
  | nil => intro ts _; simp
  | cons o os ih =>
    intro ts h
    have ho : hasEq o = true := h o (List.mem_cons_self o os)
    have hrest : ∀ t ∈ os, hasEq t = true := fun t ht => h t (List.mem_cons_of_mem o ht)
    simp [classifyTokens, ho, ih ts hrest]

theorem dropWhile_head_false {α : Type} {p : α → Bool} :
    ∀ (l : List α) (d : α) (ds : List α), l.dropWhile p = d :: ds → p d = false := by
  intro l
  induction l with
  | nil => intro d ds h; cases h
  | cons c cs ih =>
    intro d ds h
    rw [List.dropWhile_cons] at h
    by_cases hc : p c
    · rw [if_pos hc] at h
      exact ih d ds h
    · rw [if_neg hc] at h
      cases h
      exact Bool.not_eq_true _ ▸ eq_false_of_ne_true hc

/-- A token that contains `=` starts with its name: the characters before
its last `=` are an initial segment of the token. -/
theorem envVarName_take (e : List Char) (he : hasEq e = true) :
    e.take (envVarName e).length = envVarName e := by
  have hmem : '=' ∈ e.reverse := by
    rw [List.mem_reverse]
    simpa [hasEq] using he
  have hne : e.reverse.dropWhile (fun c => c != '=') ≠ [] := by
    intro hnil
    have := (List.dropWhile_eq_nil_iff.mp hnil) '=' hmem
    simp at this
  obtain ⟨d, ds, hd⟩ : ∃ d ds, e.reverse.dropWhile (fun c => c != '=') = d :: ds := by
    cases h : e.reverse.dropWhile (fun c => c != '=') with
    | nil => exact absurd h hne
    | cons d ds => exact ⟨d, ds, rfl⟩
  have hdeq : d = '=' := by
    have := dropWhile_head_false (p := fun c => c != '=') e.reverse d ds hd
    simpa using this
  subst hdeq
  have hsplit : e.reverse.takeWhile (fun c => c != '=') ++ ('=' :: ds) = e.reverse := by
    rw [← hd]
    exact List.takeWhile_append_dropWhile _ _
  have hname : envVarName e = ds.reverse := by
    unfold envVarName
    rw [hd]
    rfl
  have he2 : e = ds.reverse ++ '=' :: (e.reverse.takeWhile (fun c => c != '=')).reverse := by
    conv_lhs => rw [← List.reverse_reverse e, ← hsplit]
    simp
  rw [hname, he2]
  exact List.take_left _ _

/-! ## C1: the lock coordinator and the prepare-lock-surface path -/

/-- C1: evidence for the code bug. unlocker_create builds the unlocker but
returns NULL (desktop-shell-unlock.c line 215), so the coordinator the
startup code stores is NULL; with the lock policy at its default (enabled),
desktop_shell_prepare_lock_surface therefore always takes the
immediate-unlock path and the dialog is never shown — against the claim
and spec, which say the dialog is shown in exactly this situation. -/
theorem c1_prepare_lock_always_unlocks :
    unlocker_create = none ∧
    key_locking = true ∧
    desktop_shell_prepare_lock_surface key_locking unlocker_create =
      LockAction.unlockNow :=
  ⟨rfl, rfl, rfl⟩

/-! ## C5: launcher activation on button release -/

/-- C5 counterexample: a release of BTN_RIGHT — not the left button — on a
hovered launcher activates it (forks and execs), because
panel_launcher_button_handler never examines the button code, against the
claim that only left-button releases activate. -/
theorem c5_counterexample :
    BTN_RIGHT ≠ BTN_LEFT ∧
    panel_launcher_button_handler (panel_add_launcher_parse [] ("prog".data))
        BTN_RIGHT BtnState.released =
      some (panel_launcher_activate (panel_add_launcher_parse [] ("prog".data))) :=
  ⟨by decide, rfl⟩

/-- C5 (amended): a launcher is activated exactly on a pointer-button
release delivered to it while hovered, whatever the button: the handler's
result is independent of the button code, it activates (execs the parsed
command) on every release, and does nothing on a press. -/
theorem c5_activate_on_any_release :
    (∀ (l : LauncherParse) (b b' : Nat) (s : BtnState),
      panel_launcher_button_handler l b s = panel_launcher_button_handler l b' s) ∧
    (∀ (l : LauncherParse) (b : Nat),
      panel_launcher_button_handler l b BtnState.released =
        some (panel_launcher_activate l)) ∧
    (∀ (l : LauncherParse) (b : Nat),
      panel_launcher_button_handler l b BtnState.pressed = none) :=
  ⟨fun _ _ _ _ => rfl, fun _ _ => rfl, fun _ _ => rfl⟩

/-! ## C7: at most one deferred completion task -/

theorem run_unlock_clicks_closing :
    ∀ evs : List (Nat × BtnState), run_unlock_clicks true evs = (true, 0) := by
  intro evs
  induction evs with
  | nil => rfl
  | cons ev evs ih =>
    obtain ⟨b, s⟩ := ev
    have h : unlock_dialog_button_handler true b s = (true, false) := by
      simp [unlock_dialog_button_handler]
    simp [run_unlock_clicks, h, ih]

theorem run_unlock_clicks_le_one :
    ∀ (evs : List (Nat × BtnState)) (closing : Bool),
      (run_unlock_clicks closing evs).2 ≤ 1 := by
  intro evs
  induction evs with
  | nil => intro closing; exact Nat.zero_le 1
  | cons ev evs ih =>
    intro closing
    obtain ⟨b, s⟩ := ev
    by_cases hc : (b == BTN_LEFT && s == BtnState.released && !closing) = true
    · have h : unlock_dialog_button_handler closing b s = (true, true) := by
        simp only [unlock_dialog_button_handler, if_pos hc]
      simp [run_unlock_clicks, h, run_unlock_clicks_closing]
    · have h : unlock_dialog_button_handler closing b s = (closing, false) := by
        simp only [unlock_dialog_button_handler, if_neg hc]
      simpa [run_unlock_clicks, h] using ih closing

/-- C7: over any sequence of button events on the unlock dialog's button,
at most one completion task is ever deferred; the first left-button release
while not closing defers the task and sets the closing flag; and every
event arriving while closing is set leaves the flag set and defers
nothing. -/
theorem c7_single_completion_task :
    (∀ evs : List (Nat × BtnState), (run_unlock_clicks false evs).2 ≤ 1) ∧
    unlock_dialog_button_handler false BTN_LEFT BtnState.released = (true, true) ∧
    (∀ (b : Nat) (s : BtnState), unlock_dialog_button_handler true b s = (true, false)) :=
  ⟨fun evs => run_unlock_clicks_le_one evs false,
   by simp [unlock_dialog_button_handler],
   fun b s => by simp [unlock_dialog_button_handler]⟩

/-! ## C8: the background fill transform -/

theorem if_lt_eq_min (a b : ℚ) : (if a < b then a else b) = min a b := by
  by_cases h : a < b
  · rw [if_pos h, min_eq_left h.le]
  · rw [if_neg h, min_eq_right (le_of_not_lt h)]

/-- C8: for every fill mode, image size and allocation size, the pattern
transform background_draw computes is exactly the one the spec states:
SCALE the independent ratios, SCALE_CROP the uniform min-ratio scale with
centered translation, TILE no matrix and only repeat-extend. -/
theorem c8_fill_transform :
    ∀ (ty : BackgroundType) (im_w im_h aw ah : ℚ),
      background_draw_pattern ty im_w im_h aw ah =
        spec_background_transform ty im_w im_h aw ah := by
  intro ty im_w im_h aw ah
  cases ty with
  | scale => rfl
  | tile => rfl
  | scaleCrop =>
    simp only [background_draw_pattern, spec_background_transform,
      cairo_matrix_scale, cairo_matrix_multiply, cairo_matrix_init_translate,
      cairo_matrix_init_scale, if_lt_eq_min, PatternSetup.mk.injEq,
      Option.some.injEq, CairoMatrix.mk.injEq, and_true]
    refine ⟨?_, ?_, ?_, ?_, ?_, ?_⟩ <;> ring

/-! ## C2: environment override merging -/

/-- C2 counterexample: with process environment ["ABC=1"] and command line
"AB=2", the override token's name is "AB" while the existing variable's
name is "ABC" — a different name — yet the merge replaces the entry
(the prefix comparison of desktop-shell-panel.c line 476 matches), so the
resulting envp is ["AB=2", NULL] instead of an appended
["ABC=1", "AB=2", NULL]. -/
theorem c2_counterexample :
    (panel_add_launcher_parse ["ABC=1".data] ("AB=2".data)).envp =
      [some ("AB=2".data), none] ∧
    envVarName ("AB=2".data) = "AB".data ∧
    envVarName ("ABC=1".data) = "ABC".data ∧
    "AB".data ≠ "ABC".data :=
  ⟨by decide, by decide, by decide, by decide⟩

/-- C2 (amended): an assignment token before the first plain token replaces
the FIRST existing entry whose leading characters — as many as the token's
name, the text before the token's last '=' — equal that name, and is
appended when no entry's leading characters do; an entry with the identical
name always satisfies that comparison (so same-name replacement does
happen), but the comparison is a prefix match, so an entry whose longer
name extends the token's name can be replaced too. -/
theorem c2_env_merge_prefix_match :
    (∀ (env : List (List Char)) (t : List Char),
      (∀ e ∈ env, envEntryMatches t e = false) →
      mergeEnvToken env t = env ++ [t]) ∧
    (∀ (env₁ : List (List Char)) (e : List Char) (env₂ : List (List Char)) (t : List Char),
      (∀ x ∈ env₁, envEntryMatches t x = false) →
      envEntryMatches t e = true →
      mergeEnvToken (env₁ ++ e :: env₂) t = env₁ ++ t :: env₂) ∧
    (∀ t e : List Char,
      hasEq t = true → hasEq e = true → envVarName e = envVarName t →
      envEntryMatches t e = true) := by
  refine ⟨?_, ?_, ?_⟩
  · intro env t h
    induction env with
    | nil => rfl
    | cons e es ih =>
      have he : envEntryMatches t e = false := h e (List.mem_cons_self e es)
      simp [mergeEnvToken, he, ih (fun x hx => h x (List.mem_cons_of_mem e hx))]
  · intro env₁ e env₂ t h he
    induction env₁ with
    | nil => simp [mergeEnvToken, he]
    | cons x xs ih =>
      have hx : envEntryMatches t x = false := h x (List.mem_cons_self x xs)
      simp [mergeEnvToken, hx, ih (fun y hy => h y (List.mem_cons_of_mem x hy))]
  · intro t e _ht he hname
    unfold envEntryMatches
    rw [← hname, envVarName_take e he]
    exact beq_self_eq_true _

/-- A concrete instance of both merge behaviours: a same-name override
replaces in place, a fresh name is appended. -/
theorem c2_env_merge_example :
    mergeEnvToken ["PATH=/bin".data, "HOME=/r".data] ("PATH=/x".data) =
      ["PATH=/x".data, "HOME=/r".data] ∧
    mergeEnvToken ["HOME=/r".data] ("PATH=/x".data) =
      ["HOME=/r".data, "PATH=/x".data] :=
  ⟨by decide, by decide⟩

/-! ## C4: default launcher synthesis -/

theorem foldl_sections_no_launcher :
    ∀ (sections : List ConfigSection) (environ : List (List Char)) (panel : PanelModel),
      (∀ s ∈ sections, s.isLauncher = false) →
      sections.foldl (launcher_section_done environ) panel = panel := by
  intro sections
  induction sections with
  | nil => intro environ panel _; rfl
  | cons s rest ih =>
    intro environ panel h
    have hs : s.isLauncher = false := h s (List.mem_cons_self s rest)
    have hstep : launcher_section_done environ panel s = panel := by
      cases s with
      | panel c => rfl
      | launcher i p => simp [ConfigSection.isLauncher] at hs
    rw [List.foldl_cons, hstep]
    exact ih environ panel (fun x hx => h x (List.mem_cons_of_mem s hx))

/-- C4 counterexample: a readable configuration with no launcher section
(here the empty section list) parses successfully with return value 0, and
panel_read_config then synthesizes NO default launcher — against the claim
that the absence of launcher sections yields exactly one default entry. -/
theorem c4_counterexample :
    (panel_read_config [] ⟨[]⟩ (some [])).1.launchers = [] ∧
    (panel_read_config [] ⟨[]⟩ (some [])).1.launchers.length = 0 ∧
    (panel_read_config [] ⟨[]⟩ (some [])).2 = 0 :=
  ⟨by decide, by decide, by decide⟩

/-- C4 (amended): the single default terminal launcher is synthesized
exactly when parse_config_file fails with a negative return value (the
configuration file cannot be read); a successfully parsed configuration
with no launcher section leaves the panel with no launchers at all. -/
theorem c4_default_launcher_on_parse_failure :
    (∀ environ : List (List Char),
      (panel_read_config environ ⟨[]⟩ none).1.launchers =
        [⟨default_terminal_icon, panel_add_launcher_parse environ default_terminal_path⟩]) ∧
    (∀ (environ : List (List Char)) (sections : List ConfigSection),
      (∀ s ∈ sections, s.isLauncher = false) →
      (panel_read_config environ ⟨[]⟩ (some sections)).1.launchers = []) := by
  constructor
  · intro environ
    rfl
  · intro environ sections h
    have hfold := foldl_sections_no_launcher sections environ ⟨[]⟩ h
    simp [panel_read_config, parse_config_file, hfold]

/-! ## C10: NULL termination and the all-assignment command line -/

theorem classifyTokens_all_eq :
    ∀ ts : List (List Char), (∀ t ∈ ts, hasEq t = true) →
      classifyTokens ts false = (ts, []) := by
  intro ts
  induction ts with
  | nil => intro _; rfl
  | cons s ts ih =>
    intro h
    have hs : hasEq s = true := h s (List.mem_cons_self s ts)
    simp [classifyTokens, hs, ih (fun t ht => h t (List.mem_cons_of_mem s ht))]

/-- C10: the parser always ends both argv and envp with the NULL entry;
and for a command line all of whose tokens are assignments, argv is just
the NULL terminator, so the child's execve receives argv[0] = NULL as the
executable path. -/
theorem c10_null_terminated_argv :
    (∀ (environ : List (List Char)) (path : List Char),
      (panel_add_launcher_parse environ path).argv.getLast? = some none ∧
      (panel_add_launcher_parse environ path).envp.getLast? = some none) ∧
    (∀ (environ : List (List Char)) (path : List Char),
      (∀ t ∈ tokenize path, hasEq t = true) →
      (panel_add_launcher_parse environ path).argv = [none] ∧
      (panel_launcher_activate (panel_add_launcher_parse environ path)).file = none) := by
  constructor
  · intro environ path
    constructor <;> simp [panel_add_launcher_parse]
  · intro environ path h
    have hcl := classifyTokens_all_eq (tokenize path) h
    constructor
    · simp [panel_add_launcher_parse, hcl]
    · simp [panel_launcher_activate, panel_add_launcher_parse, hcl]

/-- A concrete instance: the command line "A=1 B=2" has only assignment
tokens and parses to argv = [NULL]. -/
theorem c10_all_assignment_example :
    (panel_add_launcher_parse ["HOME=/r".data] ("A=1 B=2".data)).argv = [none] ∧
    (panel_launcher_activate
      (panel_add_launcher_parse ["HOME=/r".data] ("A=1 B=2".data))).file = none :=
  ⟨by decide, by decide⟩

/-! ## C3: the readiness barrier -/

theorem check_desktop_ready_spec (d : DesktopS) :
    (check_desktop_ready d).1.painted = (d.painted || is_desktop_painted d) ∧
    (check_desktop_ready d).2 =
      (!d.painted && is_desktop_painted d && decide (2 ≤ d.interface_version)) := by
  cases hp : d.painted <;> cases hi : is_desktop_painted d <;>
    simp [check_desktop_ready, hp, hi]

theorem runPaints_zero_of_painted :
    ∀ (evs : List (Nat × SubSurface)) (d : DesktopS), d.painted = true →
      (runPaints d evs).2 = 0 ∧ (runPaints d evs).1.painted = true := by
  intro evs
  induction evs with
  | nil => intro d hd; exact ⟨rfl, hd⟩
  | cons ev evs ih =>
    intro d hd
    obtain ⟨i, k⟩ := ev
    have h1 : check_desktop_ready { d with outputs := paintOutputs d.outputs i k } =
        ({ d with outputs := paintOutputs d.outputs i k }, false) := by
      simp [check_desktop_ready, hd]
    have hrest := ih { d with outputs := paintOutputs d.outputs i k } hd
    simp [runPaints, h1, hrest.1, hrest.2]

theorem runPaints_le_one :
    ∀ (evs : List (Nat × SubSurface)) (d : DesktopS), (runPaints d evs).2 ≤ 1 := by
  intro evs
  induction evs with
  | nil => intro d; exact Nat.zero_le 1
  | cons ev evs ih =>
    intro d
    obtain ⟨i, k⟩ := ev
    by_cases hc : (!({ d with outputs := paintOutputs d.outputs i k } : DesktopS).painted &&
        is_desktop_painted { d with outputs := paintOutputs d.outputs i k }) = true
    · have h1 : check_desktop_ready { d with outputs := paintOutputs d.outputs i k } =
          ({ { d with outputs := paintOutputs d.outputs i k } with painted := true },
           decide (2 ≤ d.interface_version)) := by
        simp only [check_desktop_ready, if_pos hc]
      have hrest := runPaints_zero_of_painted evs
        { outputs := paintOutputs d.outputs i k, painted := true,
          interface_version := d.interface_version } rfl
      cases hv : decide (2 ≤ d.interface_version) <;>
        simp [runPaints, h1, hv, hrest.1]
    · have h1 : check_desktop_ready { d with outputs := paintOutputs d.outputs i k } =
          ({ d with outputs := paintOutputs d.outputs i k }, false) := by
        simp only [check_desktop_ready, if_neg hc]
      simpa [runPaints, h1] using ih { d with outputs := paintOutputs d.outputs i k }

/-- C3: the readiness barrier. The desktop-wide flag becomes true exactly
when it already was or every tracked output's present sub-surfaces have
painted, and the compositor is notified exactly on that false-to-true
transition when the negotiated version is at least 2; over any sequence of
redraw completions the compositor is notified at most once; and with two
outputs each holding one unpainted panel and no background, painting one
panel does not fire the barrier while painting the second fires it, with
the notification sent exactly when the version is at least 2. -/
theorem c3_readiness_barrier :
    (∀ d : DesktopS,
      (check_desktop_ready d).1.painted = (d.painted || is_desktop_painted d) ∧
      (check_desktop_ready d).2 =
        (!d.painted && is_desktop_painted d && decide (2 ≤ d.interface_version))) ∧
    (∀ (evs : List (Nat × SubSurface)) (d : DesktopS), (runPaints d evs).2 ≤ 1) ∧
    (∀ v : Nat,
      (runPaints ⟨[⟨some false, none⟩, ⟨some false, none⟩], false, v⟩
        [(0, SubSurface.panel)]).1.painted = false ∧
      (runPaints ⟨[⟨some false, none⟩, ⟨some false, none⟩], false, v⟩
        [(0, SubSurface.panel)]).2 = 0 ∧
      (runPaints ⟨[⟨some false, none⟩, ⟨some false, none⟩], false, v⟩
        [(0, SubSurface.panel), (1, SubSurface.panel)]).1.painted = true ∧
      (runPaints ⟨[⟨some false, none⟩, ⟨some false, none⟩], false, v⟩
        [(0, SubSurface.panel), (1, SubSurface.panel)]).2 =
        (if 2 ≤ v then 1 else 0)) := by
  refine ⟨check_desktop_ready_spec, runPaints_le_one, ?_⟩
  intro v
  refine ⟨?_, ?_, ?_, ?_⟩ <;>
    simp [runPaints, check_desktop_ready, is_desktop_painted, paintOutputs, paintOutput]

/-! ## C6: per-surface painted flags -/

theorem panel_op_run_painted :
    ∀ (ops : List PanelOp) (s : PanelSt),
      (panel_op_run s ops).painted =
        (s.painted || ops.any (fun op => op == PanelOp.redraw)) := by
  intro ops
  induction ops with
  | nil => intro s; simp [panel_op_run]
  | cons op ops ih =>
    intro s
    have h : panel_op_run s (op :: ops) = panel_op_run (panel_op_step s op) ops := rfl
    rw [h, ih]
    cases op with
    | redraw => simp [panel_op_step]
    | resize => rfl
    | button => rfl
    | configure => rfl
    | clockRedraw => rfl

theorem panel_flips_spec :
    ∀ (ops : List PanelOp) (s : PanelSt),
      panel_flips s ops =
        if s.painted then 0
        else if ops.any (fun op => op == PanelOp.redraw) then 1 else 0 := by
  intro ops
  induction ops with
  | nil => intro s; cases hs : s.painted <;> simp [panel_flips, hs]
  | cons op ops ih =>
    intro s
    cases op <;> cases hs : s.painted <;>
      simp [panel_flips, panel_op_step, hs, ih]

theorem background_op_run_painted :
    ∀ (ops : List BackgroundOp) (s : BackgroundSt),
      (background_op_run s ops).painted =
        (s.painted || ops.any (fun op => op == BackgroundOp.draw)) := by
  intro ops
  induction ops with
  | nil => intro s; simp [background_op_run]
  | cons op ops ih =>
    intro s
    have h : background_op_run s (op :: ops) =
        background_op_run (background_op_step s op) ops := rfl
    rw [h, ih]
    cases op with
    | draw => simp [background_op_step]
    | configure => rfl

theorem background_flips_spec :
    ∀ (ops : List BackgroundOp) (s : BackgroundSt),
      background_flips s ops =
        if s.painted then 0
        else if ops.any (fun op => op == BackgroundOp.draw) then 1 else 0 := by
  intro ops
  induction ops with
  | nil => intro s; cases hs : s.painted <;> simp [background_flips, hs]
  | cons op ops ih =>
    intro s
    cases op <;> cases hs : s.painted <;>
      simp [background_flips, background_op_step, hs, ih]

/-- C6: a panel's or background's painted flag is monotone — each callback
leaves it true once true, and only the redraw callback sets it — so over
any callback sequence from the freshly-created (unpainted) state the flag
ends true exactly when a redraw completed, and it changes value exactly
once when any redraw completed and never otherwise: the flag flips
false-to-true on the first completed redraw and never resets. -/
theorem c6_painted_flag_once :
    (∀ (s : PanelSt) (op : PanelOp),
      (panel_op_step s op).painted = (s.painted || op == PanelOp.redraw)) ∧
    (∀ ops : List PanelOp,
      (panel_op_run ⟨false⟩ ops).painted = ops.any (fun op => op == PanelOp.redraw)) ∧
    (∀ ops : List PanelOp,
      panel_flips ⟨false⟩ ops =
        if ops.any (fun op => op == PanelOp.redraw) then 1 else 0) ∧
    (∀ (s : BackgroundSt) (op : BackgroundOp),
      (background_op_step s op).painted = (s.painted || op == BackgroundOp.draw)) ∧
    (∀ ops : List BackgroundOp,
      (background_op_run ⟨false⟩ ops).painted =
        ops.any (fun op => op == BackgroundOp.draw)) ∧
    (∀ ops : List BackgroundOp,
      background_flips ⟨false⟩ ops =
        if ops.any (fun op => op == BackgroundOp.draw) then 1 else 0) := by
  refine ⟨?_, ?_, ?_, ?_, ?_, ?_⟩
  · intro s op; cases op <;> simp [panel_op_step]
  · intro ops; rw [panel_op_run_painted ops ⟨false⟩]; simp
  · intro ops; rw [panel_flips_spec ops ⟨false⟩]; simp
  · intro s op; cases op <;> simp [background_op_step]
  · intro ops; rw [background_op_run_painted ops ⟨false⟩]; simp
  · intro ops; rw [background_flips_spec ops ⟨false⟩]; simp

/-! ## C9: re-parsing the reconstructed command line -/

theorem classifyTokens_plain_head (t : List Char) (ts : List (List Char))
    (ht : hasEq t = false) :
    classifyTokens (t :: ts) false = ([], t :: ts) := by
  simp [classifyTokens, ht, classifyTokens_true]

theorem classify_reparse (toks : List (List Char)) :
    classifyTokens ((classifyTokens toks false).1 ++ (classifyTokens toks false).2) false =
      classifyTokens toks false := by
  have hov := classifyTokens_overrides_hasEq toks
  rw [classifyTokens_append_overrides _ _ hov]
  rcases classifyTokens_argv_head toks with h | ⟨hh, tl, heq, hplain⟩
  · rw [h]
    refine Prod.ext ?_ ?_
    · simp [classifyTokens]
    · simpa [classifyTokens] using h.symm
  · rw [heq, classifyTokens_plain_head hh tl hplain]
    refine Prod.ext ?_ ?_
    · simp
    · simpa using heq.symm

/-- C9 counterexample: the claim's second half asserts some command line
with an '='-bearing token after the first plain token re-parses to a
different result; in fact NO command line does — re-parsing the
reconstruction (overrides followed by argv) always reproduces the same
classification — so that existential is false. -/
theorem c9_counterexample :
    (∃ path : List Char,
      (afterFirstPlain (tokenize path)).any hasEq = true ∧
      classifyTokens ((classifyTokens (tokenize path) false).1 ++
          (classifyTokens (tokenize path) false).2) false ≠
        classifyTokens (tokenize path) false) = False :=
  eq_false (fun ⟨path, _, hne⟩ => hne (classify_reparse (tokenize path)))

/-- C9 (amended): for EVERY launcher command line — also those with
'='-bearing tokens after the first plain token — parsing the token sequence
reconstructed from the parsed result (environment overrides followed by
argv) yields the same overrides and argv, and hence the same merged
environment overlay: the parse is unconditionally idempotent, because
argv's first entry never contains '=' and every later token is kept in
argv regardless of content. -/
theorem c9_reparse_idempotent :
    (∀ toks : List (List Char),
      classifyTokens ((classifyTokens toks false).1 ++ (classifyTokens toks false).2) false =
        classifyTokens toks false) ∧
    (∀ (environ : List (List Char)) (toks : List (List Char)),
      ((classifyTokens ((classifyTokens toks false).1 ++
          (classifyTokens toks false).2) false).1).foldl mergeEnvToken environ =
        ((classifyTokens toks false).1).foldl mergeEnvToken environ) :=
  ⟨classify_reparse,
   fun environ toks => by rw [classify_reparse toks]⟩

end WestonShell
